import Mathlib

/-!
Verification of the matching-engine specification of this repository.

The repository sources present here contain the matcher and persistence
test suites, the Cassandra schema, and peripheral modules; the matcher,
forwarder and task persistence implementations themselves are not
present. Each definition below that embeds such a missing component is
modelled from the specification (sections 4.1-4.4, 6 and 7) and carries
a doc comment saying so; the tests present in the sources pin concrete
expected behaviour and are cited where they apply.
-/

namespace Temporal

/-- Source of a task offered to the matcher: produced by the history
engine (fresh, not yet persisted) or read from the database backlog. -/
inductive TaskSource
  | history
  | dbBacklog
deriving DecidableEq, Repr

/-- Error returned by a matcher operation when the caller context
resolves first: the context deadline elapsed or it was cancelled. -/
inductive MatchError
  | ctxDone
deriving DecidableEq, Repr

/-- Outcome of the race inside TaskMatcher.Offer: which of the
competing futures resolved first, in resolution order. A forward
attempt can either succeed on the parent (remote sync match) or fail
with an RPC error (throttle, deadline, transport). -/
inductive OfferEvent
  | localMatch
  | forwardOk
  | forwardFail
  | ctxDone
deriving DecidableEq, Repr

/-- Result of TaskMatcher.Offer: the matched flag and the returned
error, mirroring the (bool, error) pair of the source operation. -/
structure OfferResult where
  matched : Bool
  err : Option MatchError
deriving DecidableEq, Repr

namespace TaskMatcher

/-- Modelled from the spec: the TaskMatcher.Offer operation of the
matching package is not among the sources here (only its tests are).
Per spec 4.3, offer races (a) a blocking send to a waiting poller,
(b) a forward to the parent partition, (c) context cancellation; the
argument list gives the events in the order they resolve, and a `none`
result means the operation is still blocked in the race. Per spec 4.4
and 7, a failed forward is swallowed: a fresh (history) task then
returns not-matched with no error, while a backlog task keeps racing
because its caller cannot re-queue it. -/
def Offer (source : TaskSource) : List OfferEvent → Option OfferResult
  | [] => none
  | OfferEvent.localMatch :: _ => some ⟨true, none⟩
  | OfferEvent.forwardOk :: _ => some ⟨true, none⟩
  | OfferEvent.ctxDone :: _ => some ⟨false, some MatchError.ctxDone⟩
  | OfferEvent.forwardFail :: rest =>
      match source with
      | TaskSource.history => some ⟨false, none⟩
      | TaskSource.dbBacklog => Offer TaskSource.dbBacklog rest

end TaskMatcher

/-- C1: For a task whose source is the database backlog, Offer blocks
until a local match, a successful forward, or context cancellation
resolves: any returned result is either matched with no error or
unmatched with the context error, never matched=false with a nil
error; and a run in which only forward failures resolve leaves the
operation still blocked. -/
theorem Offer_dbBacklog_blocks_until_resolution :
    (∀ (evts : List OfferEvent) (res : OfferResult),
      TaskMatcher.Offer TaskSource.dbBacklog evts = some res →
      (res = ⟨true, none⟩ ∨ res = ⟨false, some MatchError.ctxDone⟩) ∧
        ¬(res.matched = false ∧ res.err = none)) ∧
    (∀ n : Nat,
      TaskMatcher.Offer TaskSource.dbBacklog
        (List.replicate n OfferEvent.forwardFail) = none) := by
  constructor
  · intro evts
    induction evts with
    | nil => intro res h; simp [TaskMatcher.Offer] at h
    | cons e rest ih =>
      intro res h
      cases e with
      | localMatch =>
        simp [TaskMatcher.Offer] at h
        subst h; exact ⟨Or.inl rfl, by simp⟩
      | forwardOk =>
        simp [TaskMatcher.Offer] at h
        subst h; exact ⟨Or.inl rfl, by simp⟩
      | ctxDone =>
        simp [TaskMatcher.Offer] at h
        subst h; exact ⟨Or.inr rfl, by simp⟩
      | forwardFail =>
        simp only [TaskMatcher.Offer] at h
        exact ih res h
  · intro n
    induction n with
    | zero => rfl
    | succ k ih => simpa [List.replicate_succ, TaskMatcher.Offer] using ih

/-- Witness for C1 at concrete inputs: a backlog offer whose race
resolves with a forward failure followed by context cancellation
returns unmatched with the context error, and three consecutive
forward failures leave the offer blocked. -/
theorem Offer_dbBacklog_blocks_witness :
    ((OfferResult.mk false (some MatchError.ctxDone) = ⟨true, none⟩ ∨
      OfferResult.mk false (some MatchError.ctxDone) =
        ⟨false, some MatchError.ctxDone⟩) ∧
      ¬((OfferResult.mk false (some MatchError.ctxDone)).matched = false ∧
        (OfferResult.mk false (some MatchError.ctxDone)).err = none)) ∧
    TaskMatcher.Offer TaskSource.dbBacklog
      (List.replicate 3 OfferEvent.forwardFail) = none :=
  ⟨Offer_dbBacklog_blocks_until_resolution.1
      [OfferEvent.forwardFail, OfferEvent.ctxDone] _ (by rfl),
    Offer_dbBacklog_blocks_until_resolution.2 3⟩

/-- C4: For a fresh (history-sourced) task whose forward to the parent
fails, Offer returns matched=false with a nil error: the forwarder
error is swallowed and never propagated to the caller. -/
theorem Offer_history_forward_failure_swallowed :
    ∀ rest : List OfferEvent,
      TaskMatcher.Offer TaskSource.history (OfferEvent.forwardFail :: rest) =
        some ⟨false, none⟩ := by
  intro rest; rfl

/-- Outcome of the race inside TaskMatcher.OfferQuery: a waiting local
poller picked the query task off the query channel, or the synchronous
QueryWorkflow forward to the parent returned response bytes, or the
forward failed, or the caller context resolved. -/
inductive QueryEvent
  | localMatch
  | forwardResp (bytes : String)
  | forwardFail
  | ctxDone
deriving DecidableEq, Repr

namespace TaskMatcher

/-- Modelled from the spec: the TaskMatcher.OfferQuery operation of
the matching package is not among the sources here. Per spec 4.3 it
races a local hand-off on the query channel against a synchronous
QueryWorkflow forward to the parent; a local match leaves the response
to be reported later through the query completion path, so it yields
no response value here, while a successful forward yields the worker
response bytes routed back to the caller. Per spec 4.4 and 7 a failed
forward is swallowed and the race continues locally. -/
def OfferQuery : List QueryEvent → Option (Option String × Option MatchError)
  | [] => none
  | QueryEvent.localMatch :: _ => some (none, none)
  | QueryEvent.forwardResp b :: _ => some (some b, none)
  | QueryEvent.ctxDone :: _ => some (none, some MatchError.ctxDone)
  | QueryEvent.forwardFail :: rest => OfferQuery rest

end TaskMatcher

/-- C6: When a query task is forwarded synchronously to the parent and
a poller there answers it, OfferQuery returns the worker response
bytes unchanged to the original caller; in particular response bytes
"answer" come back exactly as "answer". -/
theorem OfferQuery_forwarded_response_unchanged :
    (∀ (b : String) (rest : List QueryEvent),
      TaskMatcher.OfferQuery (QueryEvent.forwardResp b :: rest) =
        some (some b, none)) ∧
    TaskMatcher.OfferQuery [QueryEvent.forwardResp "answer"] =
      some (some "answer", none) :=
  ⟨fun _ _ => rfl, rfl⟩

/-- C9: A query task matched by a local poller makes OfferQuery return
a nil response and a nil error; a non-nil response arises only from
the forwarded path, namely from a QueryWorkflow forward that returned
those very bytes. -/
theorem OfferQuery_local_match_nil_response :
    (∀ rest : List QueryEvent,
      TaskMatcher.OfferQuery (QueryEvent.localMatch :: rest) =
        some (none, none)) ∧
    (∀ (evts : List QueryEvent) (b : String) (e : Option MatchError),
      TaskMatcher.OfferQuery evts = some (some b, e) →
      QueryEvent.forwardResp b ∈ evts) := by
  refine ⟨fun _ => rfl, ?_⟩
  intro evts
  induction evts with
  | nil => intro b e h; simp [TaskMatcher.OfferQuery] at h
  | cons q rest ih =>
    intro b e h
    cases q with
    | localMatch => simp [TaskMatcher.OfferQuery] at h
    | forwardResp c =>
      simp [TaskMatcher.OfferQuery] at h
      simp [h.1]
    | ctxDone => simp [TaskMatcher.OfferQuery] at h
    | forwardFail =>
      simp only [TaskMatcher.OfferQuery] at h
      exact List.mem_cons_of_mem _ (ih b e h)

/-- Witness for C9 at a concrete input: a race resolved by a forward
that answered with bytes "answer" indeed contains that forward
event. -/
theorem OfferQuery_local_match_witness :
    QueryEvent.forwardResp "answer" ∈
      [QueryEvent.forwardFail, QueryEvent.forwardResp "answer"] :=
  OfferQuery_local_match_nil_response.2
    [QueryEvent.forwardFail, QueryEvent.forwardResp "answer"] "answer" none rfl

/-- An in-memory task handed to a poller: carries its source, the name
of the partition it was forwarded from (empty when locally
originated), and whether the parent already recorded it as started. -/
structure InternalTask where
  source : TaskSource
  forwardedFrom : String
  started : Bool
deriving DecidableEq, Repr

/-- Modelled from the spec: the internal task constructor of the
matching package is not among the sources here. A task entering the
matcher locally or via AddTask is not yet started. -/
def newInternalTask (source : TaskSource) (forwardedFrom : String) :
    InternalTask :=
  ⟨source, forwardedFrom, false⟩

/-- Modelled from the spec: the started-task constructor of the
matching package is not among the sources here. A task built from a
poll response of the parent partition was already matched and recorded
as started there before being returned to the child (spec 4.4: the
parent matcher treats the forwarded poll like any other poll and the
task it matches out is returned to the child). -/
def newInternalStartedTask (source : TaskSource) : InternalTask :=
  ⟨source, "", true⟩

/-- The isStarted accessor of the in-memory task. -/
def InternalTask.isStarted (t : InternalTask) : Bool := t.started

/-- Outcome of the race inside TaskMatcher.Poll: a producer handed a
task over the task channel, or the forwarded poll to the parent
returned a response, or the caller context resolved. -/
inductive PollEvent
  | localTask (t : InternalTask)
  | remoteResponse (source : TaskSource)
  | ctxDone
deriving DecidableEq, Repr

/-- Result of TaskMatcher.Poll: a task, or the context error. -/
inductive PollResult
  | task (t : InternalTask)
  | ctxErr
deriving DecidableEq, Repr

namespace TaskMatcher

/-- Modelled from the spec: the TaskMatcher.Poll operation of the
matching package is not among the sources here. Per spec 4.3 it races
a receive on the task channel, a forwarded poll to the parent, and
context cancellation; a locally matched task is delivered as the
producer built it, while a forwarded poll delivers a task built from
the parent response, which is already started. -/
def Poll : List PollEvent → Option PollResult
  | [] => none
  | PollEvent.localTask t :: _ => some (PollResult.task t)
  | PollEvent.remoteResponse src :: _ =>
      some (PollResult.task (newInternalStartedTask src))
  | PollEvent.ctxDone :: _ => some PollResult.ctxErr

end TaskMatcher

/-- C10: A task obtained through the forwarded-poll path is already
started when the poller receives it, whereas a task delivered by a
local synchronous match is not yet started. -/
theorem Poll_remote_started_local_not :
    (∀ (src : TaskSource) (rest : List PollEvent) (t : InternalTask),
      TaskMatcher.Poll (PollEvent.remoteResponse src :: rest) =
        some (PollResult.task t) →
      t.isStarted = true) ∧
    (∀ (src : TaskSource) (ff : String) (rest : List PollEvent)
        (t : InternalTask),
      TaskMatcher.Poll
          (PollEvent.localTask (newInternalTask src ff) :: rest) =
        some (PollResult.task t) →
      t.isStarted = false) := by
  constructor
  · intro src rest t h
    simp [TaskMatcher.Poll] at h
    subst h; rfl
  · intro src ff rest t h
    simp [TaskMatcher.Poll] at h
    subst h; rfl

/-- Witness for C10 at concrete inputs: a remote-poll task for a
history-sourced poll is started; a locally sync-matched history task
is not. -/
theorem Poll_remote_started_witness :
    (newInternalStartedTask TaskSource.history).isStarted = true ∧
    (newInternalTask TaskSource.history "").isStarted = false :=
  ⟨Poll_remote_started_local_not.1 TaskSource.history [] _ rfl,
    Poll_remote_started_local_not.2 TaskSource.history "" [] _ rfl⟩

/-- Identity of a task list within a namespace: a base name plus a
partition number, where partition 0 is the unsuffixed root. The full
name of a non-root partition carries the system partition marker and
the numeric suffix. -/
structure TaskListId where
  base : String
  partition : Nat
deriving DecidableEq, Repr

/-- Modelled from the spec: the task list name rendering of the
matching package is not among the sources here. The root partition is
named by its base name alone; a child partition K is named by the
system marker, the base name and the suffix /K, as in the task list
names used by the matcher tests. -/
def TaskListId.name (t : TaskListId) : String :=
  if t.partition = 0 then t.base
  else "/__temporal_sys/" ++ t.base ++ "/" ++ toString t.partition

/-- Modelled from the spec: the parent derivation of the matching
package is not among the sources here. Per spec section 3, the parent
task list name is derived by stripping the partition suffix of the
child. -/
def TaskListId.Parent (t : TaskListId) : String := t.base

/-- The fields of an AddTask RPC relevant to forwarding: the task list
the request is addressed to, and where it was forwarded from (empty
for a locally originated request). -/
structure AddTaskRequest where
  taskListName : String
  forwardedFrom : String
deriving DecidableEq, Repr

/-- Error of a forward attempt: the root partition has no parent and
never forwards (spec 4.4: its add permits are drained at
construction). -/
inductive ForwardError
  | noParent
deriving DecidableEq, Repr

namespace Forwarder

/-- Modelled from the spec: the Forwarder.ForwardTask operation of the
matching package is not among the sources here. Per spec 4.4 it
refuses to forward from the root partition, and otherwise issues an
AddTask RPC addressed to the parent task list with forwarded_from set
to the full name of this child partition. -/
def ForwardTask (child : TaskListId) : Except ForwardError AddTaskRequest :=
  if child.partition = 0 then Except.error ForwardError.noParent
  else Except.ok ⟨child.Parent, child.name⟩

end Forwarder

/-- Modelled from the spec: the request built for a locally originated
AddTask carries an empty forwarded_from (spec section 6: empty means
locally originated). -/
def localAddTaskRequest (taskListName : String) : AddTaskRequest :=
  ⟨taskListName, ""⟩

/-- C5: A forward from a child partition issues an AddTask request
whose forwarded_from is the full child partition name and which is
addressed to the parent name obtained by stripping the partition
suffix; a locally originated request carries an empty
forwarded_from. -/
theorem ForwardTask_request_fields (child : TaskListId)
    (h : child.partition ≠ 0) :
    Forwarder.ForwardTask child =
      Except.ok
        ⟨child.base,
          "/__temporal_sys/" ++ child.base ++ "/" ++
            toString child.partition⟩ ∧
    ∀ tl : String, (localAddTaskRequest tl).forwardedFrom = "" := by
  constructor
  · simp [Forwarder.ForwardTask, TaskListId.Parent, TaskListId.name, h]
  · intro tl; rfl

/-- Witness for C5 at the concrete child used by the matcher tests:
partition 1 of base name tl0 forwards to parent tl0 with
forwarded_from equal to its full partitioned name. -/
theorem ForwardTask_request_fields_witness :
    Forwarder.ForwardTask ⟨"tl0", 1⟩ =
      Except.ok ⟨"tl0", "/__temporal_sys/" ++ "tl0" ++ "/" ++ toString 1⟩ ∧
    ∀ tl : String, (localAddTaskRequest tl).forwardedFrom = "" :=
  ForwardTask_request_fields ⟨"tl0", 1⟩ (by decide)

/-- Kind of a task list: normal, or sticky (TTL-backed, bound to a
specific worker). -/
inductive TaskListKind
  | normal
  | sticky
deriving DecidableEq, Repr

/-- The durable metadata record of one task list: lease generation,
acknowledged level, and kind. -/
structure TaskListRecord where
  rangeId : Nat
  ackLevel : Int
  kind : TaskListKind
deriving DecidableEq, Repr

/-- Error of a conditional persistence operation: the stored value did
not satisfy the precondition. -/
inductive StoreError
  | conditionFailed
deriving DecidableEq, Repr

/-- The fields an UpdateTaskList request writes into the metadata
record. -/
structure UpdateTaskListInfo where
  ackLevel : Int
  kind : TaskListKind
deriving DecidableEq, Repr

/-- Modelled from the spec: the LeaseTaskList persistence operation is
not among the sources here (only its tests and the schema are). Per
spec 4.1, on an absent record it inserts one with range id 1 and ack
level 0; otherwise it conditionally increments the range id by one,
failing with a condition-failed error when the request presents a
nonzero range id different from the stored one (a zero request range
id means the caller presents none, as in the Go request struct). The
call returns the leased record; the store then holds that record. -/
def leaseTaskList (store : Option TaskListRecord) (reqKind : TaskListKind)
    (reqRangeId : Nat) :
    Except StoreError (TaskListRecord × Option TaskListRecord) :=
  match store with
  | none =>
      let r : TaskListRecord := ⟨1, 0, reqKind⟩
      Except.ok (r, some r)
  | some r =>
      if reqRangeId ≠ 0 ∧ reqRangeId ≠ r.rangeId then
        Except.error StoreError.conditionFailed
      else
        let r2 : TaskListRecord := { r with rangeId := r.rangeId + 1 }
        Except.ok (r2, some r2)

/-- Modelled from the spec: the UpdateTaskList persistence operation
is not among the sources here (only its tests and the schema are).
For a sticky record the write is a TTL-backed upsert and does not
check the range id (spec section 3: sticky records are TTL-backed and
need no strict leasing; the persistence test asserts that a sticky
update with a different range id succeeds). For a normal record the
write is conditional on the request range id matching the stored
one. -/
def updateTaskList (store : Option TaskListRecord)
    (info : UpdateTaskListInfo) (reqRangeId : Nat) :
    Except StoreError (Option TaskListRecord) :=
  if info.kind = TaskListKind.sticky then
    Except.ok (some ⟨reqRangeId, info.ackLevel, info.kind⟩)
  else
    match store with
    | none => Except.error StoreError.conditionFailed
    | some r =>
        if reqRangeId = r.rangeId then
          Except.ok (some ⟨r.rangeId, info.ackLevel, info.kind⟩)
        else Except.error StoreError.conditionFailed

/-- C2 counterexample: an UpdateTaskList on a sticky record presenting
range id 2 while the store holds range id 1 succeeds instead of
failing with a condition-failed error, so the stale-range-id failure
does not hold for every queue kind. -/
theorem updateTaskList_sticky_stale_range_succeeds :
    updateTaskList (some ⟨1, 0, TaskListKind.sticky⟩)
        ⟨0, TaskListKind.sticky⟩ 2 =
      Except.ok (some ⟨2, 0, TaskListKind.sticky⟩) ∧
    (2 : Nat) ≠ (1 : Nat) := by
  exact ⟨rfl, by decide⟩

/-- C2 (amended): an UpdateTaskList on a normal-kind record presenting
a range id different from the stored one fails with a condition-failed
error; sticky-kind updates are TTL-backed writes that do not check the
range id. -/
theorem updateTaskList_normal_stale_range_fails (r : TaskListRecord)
    (ack : Int) (reqRangeId : Nat) (h : reqRangeId ≠ r.rangeId) :
    updateTaskList (some r) ⟨ack, TaskListKind.normal⟩ reqRangeId =
      Except.error StoreError.conditionFailed := by
  simp [updateTaskList, h]

/-- Witness for the amended C2 at the concrete inputs of the
persistence test: after the lease holder moved the record to range id
2, an update of the normal record presenting range id 3 fails. -/
theorem updateTaskList_normal_stale_range_witness :
    updateTaskList (some ⟨2, 0, TaskListKind.normal⟩)
        ⟨0, TaskListKind.normal⟩ 3 =
      Except.error StoreError.conditionFailed :=
  updateTaskList_normal_stale_range_fails ⟨2, 0, TaskListKind.normal⟩ 0 3
    (by decide)

/-- C3: the first lease of an absent task list creates the record with
range id 1 and ack level 0; a subsequent lease presenting no range id
or the current one increments the range id by exactly one; and a lease
presenting a nonzero range id different from the stored one fails with
a condition-failed error. -/
theorem leaseTaskList_range_protocol (k : TaskListKind)
    (r : TaskListRecord) (reqRangeId : Nat) :
    leaseTaskList none k 0 =
      Except.ok (⟨1, 0, k⟩, some ⟨1, 0, k⟩) ∧
    (reqRangeId = 0 ∨ reqRangeId = r.rangeId →
      leaseTaskList (some r) k reqRangeId =
        Except.ok ({ r with rangeId := r.rangeId + 1 },
          some { r with rangeId := r.rangeId + 1 })) ∧
    (reqRangeId ≠ 0 → reqRangeId ≠ r.rangeId →
      leaseTaskList (some r) k reqRangeId =
        Except.error StoreError.conditionFailed) := by
  refine ⟨rfl, ?_, ?_⟩
  · intro h
    rcases h with h | h <;> simp [leaseTaskList, h]
  · intro h1 h2
    simp [leaseTaskList, h1, h2]

/-- Witness for C3 at the concrete inputs of the persistence test: a
fresh activity task list leases to range id 1 with ack level 0, the
second lease moves it to 2, and a lease presenting range id 1 while
the store holds 2 fails. -/
theorem leaseTaskList_range_protocol_witness :
    leaseTaskList none TaskListKind.normal 0 =
      Except.ok (⟨1, 0, TaskListKind.normal⟩,
        some ⟨1, 0, TaskListKind.normal⟩) ∧
    leaseTaskList (some ⟨1, 0, TaskListKind.normal⟩) TaskListKind.normal 0 =
      Except.ok (⟨2, 0, TaskListKind.normal⟩,
        some ⟨2, 0, TaskListKind.normal⟩) ∧
    leaseTaskList (some ⟨2, 0, TaskListKind.normal⟩) TaskListKind.normal 1 =
      Except.error StoreError.conditionFailed := by
  refine ⟨(leaseTaskList_range_protocol TaskListKind.normal
      ⟨1, 0, TaskListKind.normal⟩ 0).1, ?_, ?_⟩
  · exact (leaseTaskList_range_protocol TaskListKind.normal
      ⟨1, 0, TaskListKind.normal⟩ 0).2.1 (Or.inl rfl)
  · exact (leaseTaskList_range_protocol TaskListKind.normal
      ⟨2, 0, TaskListKind.normal⟩ 1).2.2 (by decide) (by decide)

/-- A durable task row of one queue, keyed by its task id. -/
structure TaskRecord where
  taskId : Int
  scheduleId : Int
  workflowId : String
deriving DecidableEq, Repr

/-- The store invariant of the task table of one queue: rows are kept
in strictly ascending task id order, as the schema clusters rows by
task id and ids are minted monotonically. -/
def TasksSorted (tasks : List TaskRecord) : Prop :=
  tasks.Pairwise (fun a b => a.taskId < b.taskId)

instance (l : List TaskRecord) : Decidable (TasksSorted l) := by
  unfold TasksSorted; infer_instance

/-- Modelled from the spec: the GetTasks persistence operation is not
among the sources here (only its tests and the schema are). Per spec
section 6 it is a range read returning at most the batch size of rows
with task id strictly above the read level, in the ascending id order
of the clustered table. -/
def getTasks (tasks : List TaskRecord) (readLevel : Int)
    (batchSize : Nat) : List TaskRecord :=
  (tasks.filter (fun t => readLevel < t.taskId)).take batchSize

/-- Modelled from the spec: the CompleteTasksLessThan persistence
operation is not among the sources here (only its tests and the schema
are). Per spec section 6 it deletes at most the limit of rows with
task id at or below the upper bound, in ascending id order (smallest
first on the clustered table), and returns the number of rows
deleted. -/
def completeTasksLessThan (tasks : List TaskRecord) (upper : Int)
    (limit : Nat) : Nat × List TaskRecord :=
  let del := (tasks.takeWhile (fun t => t.taskId ≤ upper)).take limit
  (del.length, tasks.drop del.length)

/-- Taking while a predicate holds yields an initial segment: the take
of the list at the resulting length. -/
theorem takeWhile_eq_take_length (p : TaskRecord → Bool) :
    ∀ l : List TaskRecord, l.takeWhile p = l.take (l.takeWhile p).length := by
  intro l
  induction l with
  | nil => rfl
  | cons a l ih =>
    by_cases hp : p a
    · simp only [List.takeWhile_cons_of_pos hp, List.length_cons,
        List.take_succ_cons]
      exact congrArg (a :: ·) ih
    · simp [List.takeWhile_cons_of_neg hp]

/-- An initial take followed by the drop at its own length rebuilds
the list. -/
theorem take_append_drop_take_length (l : List TaskRecord) (m : Nat) :
    l.take m ++ l.drop (l.take m).length = l := by
  induction l generalizing m with
  | nil => simp
  | cons a l ih =>
    cases m with
    | zero => simp
    | succ k =>
      simp only [List.take_succ_cons, List.length_cons, List.drop_succ_cons,
        List.cons_append]
      exact congrArg (a :: ·) (ih k)

/-- On a strictly ascending task list, the rows at or below a bound
form the initial segment: takeWhile agrees with filter. -/
theorem takeWhile_le_eq_filter_of_sorted (upper : Int) :
    ∀ l : List TaskRecord, TasksSorted l →
      l.takeWhile (fun t => t.taskId ≤ upper) =
        l.filter (fun t => t.taskId ≤ upper) := by
  intro l
  induction l with
  | nil => intro _; rfl
  | cons a l ih =>
    intro h
    rcases List.pairwise_cons.mp h with ⟨ha, hl⟩
    by_cases hp : a.taskId ≤ upper
    · simp only [List.takeWhile_cons, List.filter_cons, hp, decide_True,
        if_true]
      exact congrArg (a :: ·) (ih hl)
    · simp only [List.takeWhile_cons, List.filter_cons, hp, decide_False,
        Bool.false_eq_true, if_false]
      symm
      rw [List.filter_eq_nil_iff]
      intro b hb
      have hab : a.taskId < b.taskId := ha b hb
      simp only [decide_eq_true_eq]
      omega

/-- The contract of getTasks on a queue satisfying the store
invariant, as one relational predicate: every returned row is a stored
row strictly above the read level; the rows come back in strictly
ascending id order; the count is the batch size capped by the number
of eligible rows; and any eligible stored row that is not returned
means the batch is full and every returned row has a smaller id. -/
def GetTasksSpec (tasks : List TaskRecord) (readLevel : Int)
    (batchSize : Nat) : Prop :=
  (∀ t ∈ getTasks tasks readLevel batchSize,
    t ∈ tasks ∧ readLevel < t.taskId) ∧
  (getTasks tasks readLevel batchSize).Pairwise
    (fun a b => a.taskId < b.taskId) ∧
  (getTasks tasks readLevel batchSize).length =
    min batchSize (tasks.filter (fun t => readLevel < t.taskId)).length ∧
  (∀ t ∈ tasks, readLevel < t.taskId →
    t ∉ getTasks tasks readLevel batchSize →
    (getTasks tasks readLevel batchSize).length = batchSize ∧
      ∀ u ∈ getTasks tasks readLevel batchSize, u.taskId < t.taskId)

/-- C7: on a queue whose rows are in ascending task id order, GetTasks
with read level r and batch size n returns exactly the n (or fewer, if
fewer exist) lowest task ids strictly greater than r, in ascending
task id order. -/
theorem getTasks_spec (tasks : List TaskRecord) (readLevel : Int)
    (batchSize : Nat) (h : TasksSorted tasks) :
    GetTasksSpec tasks readLevel batchSize := by
  have hfl : (tasks.filter (fun t => readLevel < t.taskId)).Pairwise
      (fun a b => a.taskId < b.taskId) :=
    h.sublist (List.filter_sublist tasks)
  refine ⟨?_, ?_, ?_, ?_⟩
  · intro t ht
    have ht2 := List.mem_of_mem_take ht
    rcases List.mem_filter.mp ht2 with ⟨hmem, hp⟩
    exact ⟨hmem, by simpa using hp⟩
  · exact hfl.sublist (List.take_sublist _ _)
  · exact List.length_take _ _
  · intro t hmem hlt hnot
    have htf : t ∈ tasks.filter (fun t => readLevel < t.taskId) :=
      List.mem_filter.mpr ⟨hmem, by simpa using hlt⟩
    set fl := tasks.filter (fun t => readLevel < t.taskId) with hfl_def
    have hsplit : fl.take batchSize ++ fl.drop batchSize = fl :=
      List.take_append_drop _ _
    have hdrop : t ∈ fl.drop batchSize := by
      rcases (List.mem_append.mp (by rw [hsplit]; exact htf)) with hcase | hcase
      · exact absurd hcase hnot
      · exact hcase
    have hlen : batchSize < fl.length := by
      by_contra hle
      push_neg at hle
      have : fl.drop batchSize = [] := List.drop_eq_nil_of_le hle
      rw [this] at hdrop
      exact absurd hdrop (List.not_mem_nil t)
    constructor
    · have hl : (getTasks tasks readLevel batchSize).length =
          min batchSize fl.length := List.length_take _ _
      omega
    · intro u hu
      have hpw : (fl.take batchSize ++ fl.drop batchSize).Pairwise
          (fun a b => a.taskId < b.taskId) := by
        rw [hsplit]; exact hfl
      exact ((List.pairwise_append.mp hpw).2.2) u hu t hdrop

/-- Witness for C7 at the concrete shape of the persistence test:
five rows with ids 10, 20, 30, 40, 50 read with level 20 and batch
size 2. -/
theorem getTasks_spec_witness :
    TasksSorted
      [⟨10, 1, "w"⟩, ⟨20, 2, "w"⟩, ⟨30, 3, "w"⟩, ⟨40, 4, "w"⟩,
        ⟨50, 5, "w"⟩] ∧
    GetTasksSpec
      [⟨10, 1, "w"⟩, ⟨20, 2, "w"⟩, ⟨30, 3, "w"⟩, ⟨40, 4, "w"⟩,
        ⟨50, 5, "w"⟩] 20 2 :=
  ⟨by decide,
    getTasks_spec
      [⟨10, 1, "w"⟩, ⟨20, 2, "w"⟩, ⟨30, 3, "w"⟩, ⟨40, 4, "w"⟩,
        ⟨50, 5, "w"⟩] 20 2 (by decide)⟩

/-- The contract of completeTasksLessThan on a queue satisfying the
store invariant, as one relational predicate: at most the limit of
rows is deleted; the returned count is the limit capped by the number
of rows at or below the bound; the deleted rows are an initial
segment, all at or below the bound and all with smaller ids than every
surviving row; and every row above the bound survives. -/
def CompleteTasksSpec (tasks : List TaskRecord) (upper : Int)
    (limit : Nat) : Prop :=
  (completeTasksLessThan tasks upper limit).1 ≤ limit ∧
  (completeTasksLessThan tasks upper limit).1 =
    min limit (tasks.filter (fun t => t.taskId ≤ upper)).length ∧
  (∃ del : List TaskRecord,
    del.length = (completeTasksLessThan tasks upper limit).1 ∧
    tasks = del ++ (completeTasksLessThan tasks upper limit).2 ∧
    (∀ t ∈ del, t.taskId ≤ upper) ∧
    (∀ t ∈ del, ∀ u ∈ (completeTasksLessThan tasks upper limit).2,
      t.taskId < u.taskId)) ∧
  (∀ t ∈ tasks, upper < t.taskId →
    t ∈ (completeTasksLessThan tasks upper limit).2)

/-- C8: on a queue whose rows are in ascending task id order,
CompleteTasksLessThan with upper bound and limit deletes only rows
with task id at most the bound, smallest ids first, at most the limit
of rows, returns the number deleted, and leaves every row above the
bound (and every row beyond the limit) readable unchanged. -/
theorem completeTasksLessThan_spec (tasks : List TaskRecord)
    (upper : Int) (limit : Nat) (h : TasksSorted tasks) :
    CompleteTasksSpec tasks upper limit := by
  set del := (tasks.takeWhile (fun t => t.taskId ≤ upper)).take limit
    with hdel
  have hsplit : del ++ tasks.drop del.length = tasks := by
    have h1 := takeWhile_eq_take_length (fun t => decide (t.taskId ≤ upper))
      tasks
    have h2 : del =
        tasks.take
          (limit ⊓
            (tasks.takeWhile (fun t => decide (t.taskId ≤ upper))).length) := by
      rw [hdel]
      conv_lhs => rw [h1]
      exact List.take_take _ _ _
    rw [h2]
    exact take_append_drop_take_length tasks _
  have hle : ∀ t ∈ del, t.taskId ≤ upper := by
    intro t ht
    have := List.mem_takeWhile_imp (List.mem_of_mem_take ht)
    simpa using this
  refine ⟨?_, ?_, ?_, ?_⟩
  · show del.length ≤ limit
    rw [hdel, List.length_take]
    exact Nat.min_le_left _ _
  · show del.length = _
    rw [hdel, List.length_take,
      takeWhile_le_eq_filter_of_sorted upper tasks h]
  · refine ⟨del, rfl, hsplit.symm, hle, ?_⟩
    intro t ht u hu
    have hpw : (del ++ tasks.drop del.length).Pairwise
        (fun a b => a.taskId < b.taskId) := by
      rw [hsplit]; exact h
    exact ((List.pairwise_append.mp hpw).2.2) t ht u hu
  · intro t hmem hup
    rcases List.mem_append.mp (by rw [hsplit]; exact hmem) with hc | hc
    · exact absurd (hle t hc) (by omega)
    · exact hc

/-- Witness for C8 at the concrete shape of the persistence test: six
rows with ids 10 to 60, bound 60 and limit 2 delete the two smallest
rows and leave the four largest. -/
theorem completeTasksLessThan_spec_witness :
    TasksSorted
      [⟨10, 1, "w"⟩, ⟨20, 2, "w"⟩, ⟨30, 3, "w"⟩, ⟨40, 4, "w"⟩,
        ⟨50, 5, "w"⟩, ⟨60, 6, "w"⟩] ∧
    CompleteTasksSpec
      [⟨10, 1, "w"⟩, ⟨20, 2, "w"⟩, ⟨30, 3, "w"⟩, ⟨40, 4, "w"⟩,
        ⟨50, 5, "w"⟩, ⟨60, 6, "w"⟩] 60 2 :=
  ⟨by decide,
    completeTasksLessThan_spec
      [⟨10, 1, "w"⟩, ⟨20, 2, "w"⟩, ⟨30, 3, "w"⟩, ⟨40, 4, "w"⟩,
        ⟨50, 5, "w"⟩, ⟨60, 6, "w"⟩] 60 2 (by decide)⟩

end Temporal
